import Mathlib

/-!
Verification of the shared-ownership primitive of the `rustracts` repository.

The core is `parc/src/lib.rs`: a `ParentArc<T>` (the Owner) holding a heap
`Womb<T>` cell `{ data, lock: AtomicBool, strong: AtomicUsize }`, handing out
`LockWeak<T>` handles that may upgrade into `ChildArc<T>` readers while the
lock flag is clear.  A second variant of the same design lives in
`src/sync.rs` (`LockArc<T>` over the runtime `Arc` plus an external atomic
flag).

We give a sequential shallow embedding: the shared cell is a record, each
atomic spin loop becomes a fuel-indexed function (`none` means the loop has
not exited within the given fuel; a loop that returns `none` for every fuel
diverges), and handle bookkeeping is explicit state passing.
-/

namespace Parc

/-- The shared cell (`struct Womb<T>` in `parc/src/lib.rs`):
payload `data`, atomic lock flag `lock`, atomic reader counter `strong`. -/
structure Womb (α : Type) where
  data : α
  lock : Bool
  strong : Nat
deriving Repr, DecidableEq

/-- Embeds `Womb::as_nnptr` / `ParentArc::new`: fresh cell with
`lock = AtomicBool::new(false)` and `strong = AtomicUsize::new(0)`. -/
def Womb.new (data : α) : Womb α :=
  { data := data, lock := false, strong := 0 }

/-- Embeds `ParentArc::is_locked`: relaxed load of the lock flag. -/
def isLocked (w : Womb α) : Bool := w.lock

/-- One `compare_and_swap(false, true, Release)` on the lock flag: returns the
previous value and the updated cell. -/
def casLock (w : Womb α) : Bool × Womb α :=
  if w.lock then (true, w) else (false, { w with lock := true })

/-- One `compare_and_swap(true, false, Release)` on the lock flag. -/
def casUnlock (w : Womb α) : Bool × Womb α :=
  if w.lock then (true, { w with lock := false }) else (false, w)

/-- Embeds `ParentArc::lock`: `while lock.compare_and_swap(false, true, Release) {}`.
Fuel-indexed; `none` means the spin loop did not exit within `fuel`
iterations. -/
def lockLoop : Nat → Womb α → Option (Womb α)
  | 0, _ => none
  | fuel + 1, w =>
    match casLock w with
    | (true, w1) => lockLoop fuel w1
    | (false, w1) => some w1

/-- Embeds `ParentArc::unlock`: `while lock.compare_and_swap(true, false, Release) {}`. -/
def unlockLoop : Nat → Womb α → Option (Womb α)
  | 0, _ => none
  | fuel + 1, w =>
    match casUnlock w with
    | (true, w1) => unlockLoop fuel w1
    | (false, w1) => some w1

/-- The zero-reader wait in `ParentArc::block_into_inner`:
`while this.strong.load(Acquire) != 0 {}`. -/
def waitZeroLoop : Nat → Womb α → Option (Womb α)
  | 0, _ => none
  | fuel + 1, w => if w.strong ≠ 0 then waitZeroLoop fuel w else some w

/-- Embeds `ParentArc::block_into_inner`: `self.lock()`, spin until `strong == 0`,
then `ptr::read(&this.data)` and `mem::forget(self)` (the cell is leaked,
its fields left as they are). Returns the extracted payload; `none` if
either spin loop fails to exit within `fuel`. -/
def blockIntoInner (fuel : Nat) (w : Womb α) : Option α :=
  match lockLoop fuel w with
  | none => none
  | some w1 =>
    match waitZeroLoop fuel w1 with
    | none => none
    | some w2 => some w2.data

/-- Embeds `enum TryUnwrapError<T>`: both constructors carry the `ParentArc` (here:
the cell it points to) back to the caller. -/
inductive TryUnwrapError (α : Type) where
  | WouldLock (parent : Womb α)
  | WouldBlock (parent : Womb α)
deriving Repr, DecidableEq

/-- Embeds `ParentArc::try_unwrap`, in source order: first the
`!lock && strong > 0` test (`WouldLock`), then the `strong != 0` test
(`WouldBlock`), else `ptr::read` the payload and `mem::forget` the parent. -/
def tryUnwrap (w : Womb α) : Except (TryUnwrapError α) α :=
  if ¬ w.lock ∧ w.strong > 0 then
    Except.error (TryUnwrapError.WouldLock w)
  else if w.strong ≠ 0 then
    Except.error (TryUnwrapError.WouldBlock w)
  else
    Except.ok w.data

/-- A `LockWeak<T>` handle: in the code it is a raw `NonNull<Womb<T>>`; the
only observable of the pointer itself is the `usize::MAX` sentinel test in
`LockWeak::inner` (`ptrIsMax`).  The cell it points to is passed
explicitly. -/
structure LockWeak where
  ptrIsMax : Bool
deriving Repr, DecidableEq

/-- Embeds `ParentArc::downgrade`: copies the parent's pointer into a new weak
handle.  The pointer is the address of a live `Box` allocation, so it is
never the `usize::MAX` sentinel. -/
def downgrade : LockWeak := { ptrIsMax := false }

/-- Embeds `ParentArc::try_downgrade`: `None` when the relaxed load of the lock flag
is `true`, else a fresh weak handle. -/
def tryDowngrade (w : Womb α) : Option LockWeak :=
  if w.lock then none else some { ptrIsMax := false }

/-- Embeds `LockWeak::inner`: the voided-pointer sentinel check — `None` exactly
when the stored address equals `usize::MAX`, else a reference to the cell. -/
def LockWeak.inner (wk : LockWeak) (w : Womb α) : Option (Womb α) :=
  if wk.ptrIsMax then none else some w

/-- Embeds `LockWeak::upgrade`: `self.inner()?`; return `None` if the lock flag
reads `true`; otherwise the CAS retry loop installs `strong + 1`
(sequentially it succeeds with the loaded value) and a `ChildArc` is built
from the same pointer.  Result: updated cell plus the value the new reader
dereferences to. -/
def LockWeak.upgrade (wk : LockWeak) (w : Womb α) : Option (Womb α × α) :=
  match wk.inner w with
  | none => none
  | some this =>
    if this.lock then none
    else some ({ this with strong := this.strong + 1 }, this.data)

/-- Embeds `ChildArc::drop`: the CAS retry loop installs `strong - 1`
(sequentially it succeeds with the loaded value). -/
def childDrop (w : Womb α) : Womb α :=
  { w with strong := w.strong - 1 }

/-! ### Trace semantics

A `PState` is the shared cell plus the number of live `ChildArc` readers
(a ghost count: each successful upgrade creates one, each `ChildArc::drop`
destroys one). -/

structure PState (α : Type) where
  womb : Womb α
  readers : Nat
deriving Repr, DecidableEq

/-- State right after `ParentArc::new`. -/
def PState.init (v : α) : PState α :=
  { womb := Womb.new v, readers := 0 }

/-- The operations a client can interleave between `new` and reclamation. -/
inductive Op where
  | downgrade
  | upgrade
  | release
  | lock
  | unlock
deriving Repr, DecidableEq

/-- Ops available through weak/reader handles (no lock-flag transitions). -/
def Op.isHandleOp : Op → Bool
  | .downgrade => true
  | .upgrade => true
  | .release => true
  | .lock => false
  | .unlock => false

/-- One client operation on the shared state.  `none` means the operation
cannot complete: a `release` with no live reader has no handle to drop, and
`lock` on an already-locked cell spins forever (`lockLoop` never exits; see
`lockLoop_locked_none`).  A failed `upgrade` is a completed operation that
leaves the state unchanged. -/
def applyOp : Op → PState α → Option (PState α)
  | .downgrade, s => some s
  | .upgrade, s =>
    match LockWeak.upgrade downgrade s.womb with
    | some (w1, _) => some { womb := w1, readers := s.readers + 1 }
    | none => some s
  | .release, s =>
    if s.readers = 0 then none
    else some { womb := childDrop s.womb, readers := s.readers - 1 }
  | .lock, s => (lockLoop 1 s.womb).map fun w1 => { s with womb := w1 }
  | .unlock, s => (unlockLoop 2 s.womb).map fun w1 => { s with womb := w1 }

/-- Run a list of client operations left to right. -/
def runOps : List Op → PState α → Option (PState α)
  | [], s => some s
  | op :: rest, s =>
    match applyOp op s with
    | none => none
    | some s1 => runOps rest s1

end Parc

namespace Sync

/-- The `LockArc<T>` variant of `src/sync.rs`: the runtime `Arc<T>` plus an
external `Arc<AtomicBool>` lock flag.  `strongCount` is the strong count of
the inner `Arc`: the `LockArc`'s own `inner` plus one per live upgraded
reader `Arc`. -/
structure LArc (α : Type) where
  data : α
  lock : Bool
  strongCount : Nat
deriving Repr, DecidableEq

/-- Embeds `LockArc::new`: one `Arc` reference, lock flag clear. -/
def LArc.new (v : α) : LArc α :=
  { data := v, lock := false, strongCount := 1 }

/-- Embeds `LockArc::lock_arc`'s spin:
`while self.lock.compare_and_swap(false, true, Acquire) {}`. -/
def lockArcLoop : Nat → LArc α → Option (LArc α)
  | 0, _ => none
  | fuel + 1, t =>
    if t.lock then lockArcLoop fuel t else some { t with lock := true }

/-- Embeds `Arc::try_unwrap`: succeeds exactly when the strong count is one. -/
def arcTryUnwrap (t : LArc α) : Option α :=
  if t.strongCount = 1 then some t.data else none

/-- Embeds `LockArc::consumme`: `Arc::try_unwrap(self.lock_arc())`, with the `Err`
arm hitting `unreachable!()`.  Outer `none`: the lock spin never exits;
`some none`: the `unreachable!()` panic; `some (some v)`: normal return. -/
def consumme (fuel : Nat) (t : LArc α) : Option (Option α) :=
  (lockArcLoop fuel t).map arcTryUnwrap

/-- Embeds `sync::LockWeak::upgrade`: `None` if the lock flag reads `true`, else
`Weak::upgrade` on the inner weak, which succeeds exactly when the strong
count is still positive, incrementing it. -/
def weakUpgrade (t : LArc α) : Option (LArc α × α) :=
  if t.lock then none
  else if t.strongCount = 0 then none
  else some ({ t with strongCount := t.strongCount + 1 }, t.data)

/-- Embeds `LArc` plus the ghost count of live reader `Arc`s. -/
structure LState (α : Type) where
  arc : LArc α
  readers : Nat
deriving Repr, DecidableEq

/-- Handle operations on the `LockArc` variant, mirroring `Parc.applyOp`:
`downgrade` copies the weak, `upgrade` goes through `weakUpgrade`, `release`
drops one reader `Arc` (decrementing the strong count). -/
def applyOpL : Parc.Op → LState α → Option (LState α)
  | .downgrade, s => some s
  | .upgrade, s =>
    match weakUpgrade s.arc with
    | some (t1, _) => some { arc := t1, readers := s.readers + 1 }
    | none => some s
  | .release, s =>
    if s.readers = 0 then none
    else
      some { arc := { s.arc with strongCount := s.arc.strongCount - 1 },
             readers := s.readers - 1 }
  | .lock, s => some s
  | .unlock, s => some s

/-- The refinement relation between the two variants: same payload, same
lock flag, and the `Arc` strong count exceeds the `Womb` reader count by
exactly the `LockArc`'s own reference. -/
def rel (s : Parc.PState α) (t : LState α) : Prop :=
  t.arc.data = s.womb.data ∧ t.arc.lock = s.womb.lock ∧
    t.arc.strongCount = s.womb.strong + 1 ∧ t.readers = s.readers ∧
    s.womb.strong = s.readers

end Sync

namespace Parc

/-! ### Helper lemmas about the spin loops -/

/-- With the lock flag already set, the `lock()` spin never exits: the CAS
`compare_and_swap(false, true)` keeps failing and nothing clears the flag. -/
theorem lockLoop_locked_none {α} (w : Womb α) (h : w.lock = true) :
    ∀ n, lockLoop n w = none := by
  intro n
  induction n with
  | zero => rfl
  | succ n ih => simp [lockLoop, casLock, h, ih]

/-- With the lock flag clear, the `lock()` spin exits after one successful
CAS, setting the flag. -/
theorem lockLoop_unlocked {α} (w : Womb α) (h : w.lock = false) (n : Nat) :
    lockLoop (n + 1) w = some { w with lock := true } := by
  simp [lockLoop, casLock, h]

/-- With the lock flag clear, one unit of fuel already completes the
`lock()` spin. -/
theorem lockLoop_one {α} (w : Womb α) (h : w.lock = false) :
    lockLoop 1 w = some { w with lock := true } :=
  lockLoop_unlocked w h 0

/-- The `unlock()` spin always exits within two iterations and clears the
flag: a successful CAS from `true` is followed by a failing CAS from
`false`, and from `false` the first CAS already fails. -/
theorem unlockLoop_clears {α} : ∀ (w : Womb α) (n : Nat),
    unlockLoop (n + 2) w = some { w with lock := false }
  | ⟨_, false, _⟩, _ => by simp [unlockLoop, casUnlock]
  | ⟨_, true, _⟩, _ => by simp [unlockLoop, casUnlock]

/-- Two units of fuel always complete the `unlock()` spin. -/
theorem unlockLoop_two {α} (w : Womb α) :
    unlockLoop 2 w = some { w with lock := false } :=
  unlockLoop_clears w 0

/-- The zero-reader wait spins forever while the counter is positive (the
sequential state cannot change under it). -/
theorem waitZeroLoop_pos_none {α} (w : Womb α) (h : w.strong ≠ 0) :
    ∀ n, waitZeroLoop n w = none := by
  intro n
  induction n with
  | zero => rfl
  | succ n ih => simp [waitZeroLoop, h, ih]

/-- The zero-reader wait exits at once when the counter is zero. -/
theorem waitZeroLoop_zero {α} (w : Womb α) (h : w.strong = 0) (n : Nat) :
    waitZeroLoop (n + 1) w = some w := by
  simp [waitZeroLoop, h]

/-- From an unlocked cell with no readers, `block_into_inner` returns the
payload. -/
theorem blockIntoInner_ok {α} (w : Womb α) (hl : w.lock = false)
    (hs : w.strong = 0) (n : Nat) :
    blockIntoInner (n + 1) w = some w.data := by
  simp [blockIntoInner, lockLoop_unlocked w hl n,
    waitZeroLoop_zero { w with lock := true } hs n]

/-- From a locked cell, or with readers outstanding, `block_into_inner`
never returns: either the inner `lock()` spins forever or the zero-reader
wait does. -/
theorem blockIntoInner_diverge {α} (w : Womb α)
    (h : w.lock = true ∨ w.strong ≠ 0) : ∀ n, blockIntoInner n w = none := by
  intro n
  rcases h with hl | hs
  · simp [blockIntoInner, lockLoop_locked_none w hl n]
  · cases n with
    | zero => rfl
    | succ n =>
      cases hw : w.lock with
      | true => simp [blockIntoInner, lockLoop_locked_none w hw (n + 1)]
      | false =>
        simp [blockIntoInner, lockLoop_unlocked w hw n,
          waitZeroLoop_pos_none { w with lock := true } hs]

/-- `block_into_inner` returns only from an unlocked, zero-reader cell, and
then only the payload (with at least one unit of fuel spent). -/
theorem blockIntoInner_inv {α} (w : Womb α) (n : Nat) (v : α)
    (h : blockIntoInner n w = some v) :
    w.lock = false ∧ w.strong = 0 ∧ v = w.data ∧ 1 ≤ n := by
  by_cases hl : w.lock = true
  · rw [blockIntoInner_diverge w (Or.inl hl) n] at h
    cases h
  · by_cases hs : w.strong = 0
    · cases n with
      | zero => cases h
      | succ n =>
        rw [blockIntoInner_ok w (by simpa using hl) hs n] at h
        exact ⟨by simpa using hl, hs, (Option.some_inj.mp h).symm, by omega⟩
    · rw [blockIntoInner_diverge w (Or.inr hs) n] at h
      cases h

/-! ### Helper lemmas about traces -/

/-- The state invariant along every trace from `new v`: the atomic counter
equals the number of live readers, and the payload is untouched. -/
def stateInv (v : α) (s : PState α) : Prop :=
  s.womb.strong = s.readers ∧ s.womb.data = v

/-- Every completed client operation preserves the state invariant. -/
theorem applyOp_inv {α} {v : α} (op : Op) (s s1 : PState α)
    (h : applyOp op s = some s1) (hi : stateInv v s) : stateInv v s1 := by
  obtain ⟨h1, h2⟩ := hi
  cases op with
  | downgrade =>
    simp only [applyOp, Option.some_inj] at h
    subst h
    exact ⟨h1, h2⟩
  | upgrade =>
    cases hw : s.womb.lock with
    | true =>
      simp [applyOp, LockWeak.upgrade, LockWeak.inner, downgrade, hw] at h
      subst h
      exact ⟨h1, h2⟩
    | false =>
      simp [applyOp, LockWeak.upgrade, LockWeak.inner, downgrade, hw] at h
      subst h
      simp [stateInv, h1, h2]
  | release =>
    cases hr : s.readers with
    | zero => simp [applyOp, hr] at h
    | succ k =>
      simp [applyOp, hr] at h
      subst h
      have h3 : s.womb.strong - 1 = k := by omega
      simp [stateInv, childDrop, h2, h3]
  | lock =>
    cases hw : s.womb.lock with
    | true =>
      simp [applyOp, lockLoop_locked_none s.womb hw] at h
    | false =>
      simp [applyOp, lockLoop_one s.womb hw] at h
      subst h
      simp [stateInv, h1, h2]
  | unlock =>
    simp [applyOp, unlockLoop_two s.womb] at h
    subst h
    simp [stateInv, h1, h2]

/-- The invariant holds at the end of every completed trace. -/
theorem runOps_inv {α} {v : α} (ops : List Op) :
    ∀ s s1 : PState α, runOps ops s = some s1 → stateInv v s → stateInv v s1 := by
  induction ops with
  | nil =>
    intro s s1 h hi
    simp only [runOps, Option.some_inj] at h
    exact h ▸ hi
  | cons op rest ih =>
    intro s s1 h hi
    rw [runOps] at h
    cases hap : applyOp op s with
    | none => rw [hap] at h; cases h
    | some s2 =>
      rw [hap] at h
      exact ih s2 s1 h (applyOp_inv op s s2 hap hi)

/-- The invariant from the initial state. -/
theorem runOps_init_inv {α} (v : α) (ops : List Op) (s : PState α)
    (h : runOps ops (PState.init v) = some s) : stateInv v s :=
  runOps_inv ops _ s h ⟨rfl, rfl⟩

/-- Handle-side operations (downgrade, upgrade, release) never touch the
lock flag. -/
theorem applyOp_handle_lock {α} (op : Op) (hop : op.isHandleOp = true)
    (s s1 : PState α) (h : applyOp op s = some s1) :
    s1.womb.lock = s.womb.lock := by
  cases op with
  | downgrade =>
    simp only [applyOp, Option.some_inj] at h
    subst h
    rfl
  | upgrade =>
    cases hw : s.womb.lock with
    | true =>
      simp [applyOp, LockWeak.upgrade, LockWeak.inner, downgrade, hw] at h
      subst h
      exact hw
    | false =>
      simp [applyOp, LockWeak.upgrade, LockWeak.inner, downgrade, hw] at h
      subst h
      simp [hw]
  | release =>
    cases hr : s.readers with
    | zero => simp [applyOp, hr] at h
    | succ k =>
      simp [applyOp, hr] at h
      subst h
      rfl
  | lock => cases hop
  | unlock => cases hop

/-- A trace of handle-side operations leaves the lock flag as it was. -/
theorem runOps_handle_lock {α} (ops : List Op)
    (hops : ∀ op ∈ ops, op.isHandleOp = true) :
    ∀ s s1 : PState α, runOps ops s = some s1 →
      s1.womb.lock = s.womb.lock := by
  induction ops with
  | nil =>
    intro s s1 h
    simp only [runOps, Option.some_inj] at h
    rw [← h]
  | cons op rest ih =>
    intro s s1 h
    rw [runOps] at h
    cases hap : applyOp op s with
    | none => rw [hap] at h; cases h
    | some s2 =>
      rw [hap] at h
      have h1 := applyOp_handle_lock op (hops op (by simp)) s s2 hap
      have h2 := ih (fun o ho => hops o (by simp [ho])) s2 s1 h
      rw [h2, h1]

/-! ### Claim theorems -/

/-- C1: after `Owner::new(v)` and any sequence of downgrade, upgrade and
release operations, if no live `ChildArc` remains then `block_into_inner`
terminates (any positive fuel suffices for both spin loops) and returns
exactly the `v` passed to `new`; and while some reader created before the
call remains unreleased it never returns (no fuel makes either loop exit). -/
theorem c1_block_into_inner_round_trip {α} (v : α) (ops : List Op)
    (hops : ∀ op ∈ ops, op.isHandleOp = true) (s : PState α)
    (hrun : runOps ops (PState.init v) = some s) :
    (s.readers = 0 → ∀ n, blockIntoInner (n + 1) s.womb = some v) ∧
    (s.readers ≠ 0 → ∀ n, blockIntoInner n s.womb = none) := by
  obtain ⟨h1, h2⟩ := runOps_init_inv v ops s hrun
  have hlock : s.womb.lock = false := runOps_handle_lock ops hops _ s hrun
  constructor
  · intro h0 n
    rw [blockIntoInner_ok s.womb hlock (by omega) n, h2]
  · intro hn n
    exact blockIntoInner_diverge s.womb (Or.inr (by omega)) n

/-- Witness for C1 at the trace `downgrade; upgrade; release` from
`new 0`. -/
theorem c1_witness :
    blockIntoInner 1 ({ data := 0, lock := false, strong := 0 } : Womb Nat) =
      some 0 :=
  (c1_block_into_inner_round_trip 0 [Op.downgrade, Op.upgrade, Op.release]
    (by decide) { womb := { data := 0, lock := false, strong := 0 }, readers := 0 }
    (by decide)).1 rfl 0

/-- C2: `try_unwrap` evaluates its cases in the source order — unlocked with
readers gives `WouldLock` (carrying the owner), locked with readers gives
`WouldBlock` (carrying the owner), and a zero counter gives the payload
regardless of the lock flag. -/
theorem c2_try_unwrap_case_order {α} (w : Womb α) :
    (w.lock = false → 0 < w.strong →
      tryUnwrap w = Except.error (TryUnwrapError.WouldLock w)) ∧
    (w.lock = true → w.strong ≠ 0 →
      tryUnwrap w = Except.error (TryUnwrapError.WouldBlock w)) ∧
    (w.strong = 0 → tryUnwrap w = Except.ok w.data) := by
  refine ⟨fun hl hs => ?_, fun hl hs => ?_, fun hs => ?_⟩
  · simp [tryUnwrap, hl, hs]
  · simp [tryUnwrap, hl, hs]
  · simp [tryUnwrap, hs]

/-- Witness for C2 on the three case shapes with payload `5` and one live
reader where applicable. -/
theorem c2_witness :
    tryUnwrap ({ data := 5, lock := false, strong := 1 } : Womb Nat) =
      Except.error
        (TryUnwrapError.WouldLock { data := 5, lock := false, strong := 1 }) ∧
    tryUnwrap ({ data := 5, lock := true, strong := 1 } : Womb Nat) =
      Except.error
        (TryUnwrapError.WouldBlock { data := 5, lock := true, strong := 1 }) ∧
    tryUnwrap ({ data := 5, lock := true, strong := 0 } : Womb Nat) =
      Except.ok 5 :=
  ⟨(c2_try_unwrap_case_order _).1 rfl (by decide),
   (c2_try_unwrap_case_order _).2.1 rfl (by decide),
   (c2_try_unwrap_case_order _).2.2 rfl⟩

/-- C3 counterexample: the locked zero-reader state reached by `new 0` then
`lock()` makes `try_unwrap` succeed with the payload, yet `block_into_inner`
never returns from that same starting state — its inner `lock()` call spins
forever on the already-set flag — so there is no value it "would return". -/
theorem c3_counterexample :
    runOps [Op.lock] (PState.init (0 : Nat)) =
      some { womb := { data := 0, lock := true, strong := 0 }, readers := 0 } ∧
    tryUnwrap ({ data := 0, lock := true, strong := 0 } : Womb Nat) =
      Except.ok 0 ∧
    ¬ ∃ n,
      (blockIntoInner n ({ data := 0, lock := true, strong := 0 } : Womb Nat)).isSome := by
  refine ⟨by decide, by rfl, ?_⟩
  rintro ⟨n, hn⟩
  rw [blockIntoInner_diverge _ (Or.inl rfl) n] at hn
  simp at hn

/-- C3 amended: from every reachable state with no live readers,
`try_unwrap` succeeds regardless of the lock flag and returns the value
passed to `new`; `block_into_inner` returns that same value from such a
state when the lock flag is clear, but never returns when the flag is
already set. -/
theorem c3_amended_try_unwrap_vs_block {α} (v : α) (ops : List Op)
    (s : PState α) (hrun : runOps ops (PState.init v) = some s)
    (h0 : s.readers = 0) :
    tryUnwrap s.womb = Except.ok v ∧
    (s.womb.lock = false → ∀ n, blockIntoInner (n + 1) s.womb = some v) ∧
    (s.womb.lock = true → ∀ n, blockIntoInner n s.womb = none) := by
  obtain ⟨h1, h2⟩ := runOps_init_inv v ops s hrun
  have hs : s.womb.strong = 0 := by omega
  refine ⟨?_, fun hl n => ?_, fun hl n => ?_⟩
  · simp [tryUnwrap, hs, h2]
  · rw [blockIntoInner_ok s.womb hl hs n, h2]
  · exact blockIntoInner_diverge s.womb (Or.inl hl) n

/-- Witness for the amended C3 at the state reached by `new 7; lock()`. -/
theorem c3_witness :
    tryUnwrap ({ data := 7, lock := true, strong := 0 } : Womb Nat) =
      Except.ok 7 ∧
    blockIntoInner 5 ({ data := 7, lock := true, strong := 0 } : Womb Nat) =
      none :=
  ⟨(c3_amended_try_unwrap_vs_block 7 [Op.lock]
      { womb := { data := 7, lock := true, strong := 0 }, readers := 0 }
      (by decide) rfl).1,
   (c3_amended_try_unwrap_vs_block 7 [Op.lock]
      { womb := { data := 7, lock := true, strong := 0 }, readers := 0 }
      (by decide) rfl).2.2 rfl 5⟩

/-- C4: on a weak handle produced by `downgrade`, `upgrade` returns `None`
whenever the lock flag is set — the cell (in particular `strong`) is left
untouched, no increment being attempted — and whenever the flag is clear it
installs `strong + 1` and returns a reader dereferencing to the payload. -/
theorem c4_upgrade_lock_gate {α} (w : Womb α) :
    (w.lock = true → LockWeak.upgrade downgrade w = none) ∧
    (w.lock = false → LockWeak.upgrade downgrade w =
      some ({ w with strong := w.strong + 1 }, w.data)) := by
  refine ⟨fun hl => ?_, fun hl => ?_⟩ <;>
    simp [LockWeak.upgrade, LockWeak.inner, downgrade, hl]

/-- Witness for C4, the spec's Scenario B shape: with payload `42` the
upgrade yields nothing while locked and yields a reader seeing `42` once
the flag is clear again. -/
theorem c4_witness :
    LockWeak.upgrade downgrade
      ({ data := 42, lock := true, strong := 0 } : Womb Nat) = none ∧
    LockWeak.upgrade downgrade
      ({ data := 42, lock := false, strong := 0 } : Womb Nat) =
      some ({ data := 42, lock := false, strong := 1 }, 42) :=
  ⟨(c4_upgrade_lock_gate _).1 rfl, (c4_upgrade_lock_gate _).2 rfl⟩

/-- C5: along every operation sequence from `new` — each successful upgrade
adding one reader and one counter unit, each release removing one of each —
the `strong` counter equals the number of currently live readers; both are
natural numbers, and a release only happens through an existing live
handle, so the counter is never driven below zero. -/
theorem c5_live_readers_invariant {α} (v : α) (ops : List Op) (s : PState α)
    (hrun : runOps ops (PState.init v) = some s) :
    s.womb.strong = s.readers :=
  (runOps_init_inv v ops s hrun).1

/-- Witness for C5 on the trace `downgrade; upgrade; upgrade; release`. -/
theorem c5_witness :
    runOps [Op.downgrade, Op.upgrade, Op.upgrade, Op.release]
      (PState.init (3 : Nat)) =
      some { womb := { data := 3, lock := false, strong := 1 }, readers := 1 } ∧
    ({ womb := { data := 3, lock := false, strong := 1 },
       readers := 1 } : PState Nat).womb.strong =
      ({ womb := { data := 3, lock := false, strong := 1 },
         readers := 1 } : PState Nat).readers :=
  ⟨by decide, c5_live_readers_invariant 3
    [Op.downgrade, Op.upgrade, Op.upgrade, Op.release] _ (by decide)⟩

/-- C6 counterexample: `lock()` is not idempotent. From an already-locked
cell the spin `while lock.compare_and_swap(false, true, Release) {}` never
exits — the CAS keeps failing and nothing else clears the flag — so a second
`lock()` call does not terminate in the absence of a concurrent
`unlock()`, refuting "for every starting state, including one where
lock_flag is already true, lock() terminates". -/
theorem c6_counterexample :
    ¬ ∃ n, (lockLoop n ({ data := 0, lock := true, strong := 0 } : Womb Nat)).isSome := by
  rintro ⟨n, hn⟩
  rw [lockLoop_locked_none _ rfl n] at hn
  simp at hn

/-- C6 amended: `lock()` terminates exactly from an unlocked cell (one
successful CAS), leaving the flag set; from an already-locked cell it spins
forever absent a concurrent `unlock()`; `unlock()` terminates from every
state within two CAS iterations and leaves the flag clear. -/
theorem c6_amended_lock_unlock {α} (w : Womb α) :
    (w.lock = false → lockLoop 1 w = some { w with lock := true }) ∧
    (w.lock = true → ∀ n, lockLoop n w = none) ∧
    unlockLoop 2 w = some { w with lock := false } :=
  ⟨fun h => lockLoop_one w h, fun h => lockLoop_locked_none w h,
   unlockLoop_two w⟩

/-- Witness for the amended C6 on concrete locked and unlocked cells. -/
theorem c6_witness :
    lockLoop 1 ({ data := 1, lock := false, strong := 0 } : Womb Nat) =
      some { data := 1, lock := true, strong := 0 } ∧
    lockLoop 3 ({ data := 1, lock := true, strong := 0 } : Womb Nat) = none ∧
    unlockLoop 2 ({ data := 1, lock := true, strong := 0 } : Womb Nat) =
      some { data := 1, lock := false, strong := 0 } :=
  ⟨(c6_amended_lock_unlock _).1 rfl, (c6_amended_lock_unlock _).2.1 rfl 3,
   (c6_amended_lock_unlock _).2.2⟩

/-- C7, evaluated at the failing input. After `new 0; downgrade`, the
unlocked zero-reader cell lets `try_unwrap` succeed, extracting the payload
and leaking the cell with its lock flag still clear; no code path ever
installs the `usize::MAX` sentinel in the weak handle, so a subsequent
`upgrade` on the pre-existing weak passes the `inner()` check, sees
`lock == false`, increments `strong` and hands out a reader into the
reclaimed storage instead of returning `None`. -/
theorem c7_upgrade_after_reclaim :
    runOps [Op.downgrade] (PState.init (0 : Nat)) =
      some { womb := { data := 0, lock := false, strong := 0 }, readers := 0 } ∧
    tryUnwrap ({ data := 0, lock := false, strong := 0 } : Womb Nat) =
      Except.ok 0 ∧
    LockWeak.upgrade downgrade
      ({ data := 0, lock := false, strong := 0 } : Womb Nat) =
      some ({ data := 0, lock := false, strong := 1 }, 0) :=
  ⟨by decide, by rfl, by rfl⟩

/-- C8: `try_unwrap` either succeeds with the payload, or fails carrying
back the parent over the very same cell — lock flag, counter and payload
exactly as before the call, the failing paths performing only atomic
loads — so the caller can retry without reconstructing anything. -/
theorem c8_try_unwrap_frame {α} (w : Womb α) :
    tryUnwrap w = Except.ok w.data ∨
    tryUnwrap w = Except.error (TryUnwrapError.WouldLock w) ∨
    tryUnwrap w = Except.error (TryUnwrapError.WouldBlock w) := by
  unfold tryUnwrap
  split
  · exact Or.inr (Or.inl rfl)
  · split
    · exact Or.inr (Or.inr rfl)
    · exact Or.inl rfl

/-- C9: `try_downgrade` returns nothing exactly when `is_locked()` — the
relaxed read of the lock flag — is true at the call, and otherwise returns
a fresh weak handle; `downgrade`, by contrast, is a total operation that
returns a handle unconditionally, whatever the lock state. -/
theorem c9_try_downgrade_iff {α} (w : Womb α) :
    tryDowngrade w = (if isLocked w then none else some downgrade) := rfl

end Parc

/-- C10: the `ParentArc` variant (`parc/src/lib.rs`) and the `LockArc`
variant (`src/sync.rs`) are equivalent implementations. States related by
`Sync.rel` (same payload, same lock flag, `Arc` strong count exceeding the
live-reader count by exactly the owner's own reference, with the counter
invariant of §3) stay related under every handle operation — downgrade,
upgrade, release — and whenever `block_into_inner` terminates returning a
value, `consumme` from the related `LockArc` state locks, unwraps the `Arc`
and returns the same value without reaching the `unreachable!()` panic. -/
theorem c10_variants_equivalent {α} (s : Parc.PState α) (t : Sync.LState α)
    (h : Sync.rel s t) :
    (∀ op : Parc.Op, op.isHandleOp = true → ∀ s1, Parc.applyOp op s = some s1 →
      ∃ t1, Sync.applyOpL op t = some t1 ∧ Sync.rel s1 t1) ∧
    (∀ (n : Nat) (v : α), Parc.blockIntoInner n s.womb = some v →
      Sync.consumme n t.arc = some (some v)) := by
  obtain ⟨⟨d, l, st⟩, r⟩ := s
  obtain ⟨⟨d2, l2, c2⟩, r2⟩ := t
  obtain ⟨hd, hl, hc, hr, hi⟩ := h
  simp only at hd hl hc hr hi
  constructor
  · intro op hop s1 hs1
    cases op with
    | downgrade =>
      simp only [Parc.applyOp, Option.some_inj] at hs1
      subst hs1
      exact ⟨{ arc := { data := d2, lock := l2, strongCount := c2 },
               readers := r2 }, rfl, hd, hl, hc, hr, hi⟩
    | upgrade =>
      cases l with
      | true =>
        simp [Parc.applyOp, Parc.LockWeak.upgrade, Parc.LockWeak.inner,
          Parc.downgrade] at hs1
        subst hs1
        refine ⟨{ arc := { data := d2, lock := l2, strongCount := c2 },
                  readers := r2 }, ?_, hd, hl, hc, hr, hi⟩
        simp [Sync.applyOpL, Sync.weakUpgrade, hl]
      | false =>
        simp [Parc.applyOp, Parc.LockWeak.upgrade, Parc.LockWeak.inner,
          Parc.downgrade] at hs1
        subst hs1
        refine ⟨{ arc := { data := d2, lock := l2, strongCount := c2 + 1 },
                  readers := r2 + 1 }, ?_, ?_, ?_, ?_, ?_, ?_⟩
        · have hnz : c2 ≠ 0 := by omega
          simp [Sync.applyOpL, Sync.weakUpgrade, hl, hnz]
        · simpa using hd
        · simpa using hl
        · simp only [] at hc ⊢
          omega
        · simp only [] at hr ⊢
          omega
        · simp only [] at hi ⊢
          omega
    | release =>
      cases r with
      | zero => simp [Parc.applyOp] at hs1
      | succ k =>
        simp [Parc.applyOp] at hs1
        subst hs1
        have hr2 : r2 ≠ 0 := by omega
        refine ⟨{ arc := { data := d2, lock := l2, strongCount := c2 - 1 },
                  readers := r2 - 1 }, ?_, ?_, ?_, ?_, ?_, ?_⟩
        · simp [Sync.applyOpL, hr2]
        · simpa [Parc.childDrop] using hd
        · simpa [Parc.childDrop] using hl
        · simp [Parc.childDrop]
          omega
        · simp
          omega
        · simp [Parc.childDrop]
          omega
    | lock => cases hop
    | unlock => cases hop
  · intro n v hv
    obtain ⟨hlf, hsf, hvv, hn⟩ := Parc.blockIntoInner_inv _ n v hv
    simp only at hlf hsf hvv
    subst hlf hsf hvv
    obtain ⟨m, rfl⟩ : ∃ m, n = m + 1 := ⟨n - 1, by omega⟩
    have hc1 : c2 = 1 := by omega
    subst hc1
    subst hl
    simp [Sync.consumme, Sync.lockArcLoop, Sync.arcTryUnwrap, hd]

/-- Witness for C10: reclamation correspondence at a concrete related
pair. -/
theorem c10_witness :
    Sync.consumme 1
      ({ data := 9, lock := false, strongCount := 1 } : Sync.LArc Nat) =
      some (some 9) :=
  (c10_variants_equivalent
    { womb := { data := 9, lock := false, strong := 0 }, readers := 0 }
    { arc := { data := 9, lock := false, strongCount := 1 }, readers := 0 }
    ⟨rfl, rfl, rfl, rfl, rfl⟩).2 1 9 (by decide)
